import Mathlib

/-!
Verification of the SDI-Manager topology visualization engine.

The data model follows `src/types.ts`; the engine embedding follows the
`TopologyGraph` component (`src/components/TopologyGraph.tsx` and the revision
in `src/unnamed/part_003`): its effect body copies the caller's node/link
arrays, configures the force simulation, registers the tick handler and the
drag handlers, and returns a cleanup that stops the simulation.  The force
simulation itself, the zoom scale clamping and the click/drag disambiguation
live in the `d3` library, which is not part of this repository's sources;
those parts are modelled from the spec where a definition below says so.
Positions use `Rat` in place of IEEE doubles; the claims under verification
are structural (lifecycle, pinning, rendering, identity resolution), not
about floating-point values.
-/

namespace SDI

/-- `DeviceStatus` enum from `src/types.ts`. -/
inductive DeviceStatus where
  | ONLINE
  | OFFLINE
  | WARNING
deriving DecidableEq, Repr

/-- `DeviceType` enum from `src/types.ts`. -/
inductive DeviceType where
  | ROUTER
  | SWITCH
  | SERVER
  | FIREWALL
deriving DecidableEq, Repr

/-- `AuthType` enum from `src/types.ts`. -/
inductive AuthType where
  | PASSWORD
  | KEY
deriving DecidableEq, Repr

/-- Link health flag: the `'UP' | 'DOWN'` union in `src/types.ts`. -/
inductive LinkStatus where
  | UP
  | DOWN
deriving DecidableEq, Repr

/-- `Device` from `src/types.ts`: a `NetconfDeviceConfig` (id, name, ip, port,
username, optional credentials, type) extended with runtime status fields. -/
structure Device where
  id : String
  name : String
  ip : String
  port : Int
  username : String
  password : Option String := none
  authType : Option AuthType := none
  sshKey : Option String := none
  type : DeviceType
  status : DeviceStatus
  uptime : String
  cpuLoad : Int
  memoryUsage : Int
deriving DecidableEq, Repr

/-- `Link` from `src/types.ts`: endpoints referenced by device id plus a
bandwidth string, a health flag and an optional label. -/
structure Link where
  source : String
  target : String
  bandwidth : String
  status : LinkStatus
  label : Option String := none
deriving DecidableEq, Repr

/-- `getStatusColor` from `TopologyGraph.tsx`: health status to stroke color.
The TS `default` branch is unreachable because `DeviceStatus` is a closed
three-value enum, so the match below is total over the three constructors. -/
def getStatusColor : DeviceStatus → String
  | DeviceStatus.ONLINE => "#10b981"
  | DeviceStatus.WARNING => "#f59e0b"
  | DeviceStatus.OFFLINE => "#ef4444"

/-- The link stroke attribute from `TopologyGraph.tsx`:
`d.status === 'DOWN' ? '#ef4444' : '#475569'`. -/
def linkStroke (l : Link) : String :=
  if l.status = LinkStatus.DOWN then "#ef4444" else "#475569"

/-- A simulation node: the shallow copy `{...n}` of a caller `Device` made by
`safeNodes = nodes.map(n => ({...n}))`, extended by the force simulation with
position, velocity, and the optional pinned position `fx`/`fy`. -/
structure SimNode where
  device : Device
  x : Rat
  y : Rat
  vx : Rat
  vy : Rat
  fx : Option Rat := none
  fy : Option Rat := none
deriving DecidableEq, Repr

/-- A link whose endpoint identities have been resolved to nodes of the
simulation's node array, held as indices into that array. -/
structure ResolvedLink where
  link : Link
  sourceIdx : Nat
  targetIdx : Nat
deriving DecidableEq, Repr

/-- Index of the first simulation node carrying the given device id. -/
def findNodeIdx (nodes : List SimNode) (nodeId : String) : Option Nat :=
  match nodes with
  | [] => none
  | n :: ns =>
      if n.device.id = nodeId then some 0
      else (findNodeIdx ns nodeId).map (· + 1)

/-- Modelled from the spec: `forceLink(safeLinks).id(d => d.id)` resolves each
link's endpoint identities to live node objects at simulation start and, per
the spec's failure semantics, drops (rather than crashes on) a link whose
source or target id is absent from the node set.  The resolution code itself
is inside the `d3` library, not under `src/`. -/
def resolveLinks (nodes : List SimNode) (links : List Link) : List ResolvedLink :=
  links.filterMap (fun l =>
    match findNodeIdx nodes l.source, findNodeIdx nodes l.target with
    | some s, some t => some { link := l, sourceIdx := s, targetIdx := t }
    | _, _ => none)

/-- Simulation clock states from the spec's state machine (§4.2). -/
inductive SimPhase where
  | Cold
  | Running
  | Settled
  | Reheated
deriving DecidableEq, Repr

/-- The state owned by one mounted topology effect: the caller-supplied
arrays (kept verbatim; the component never writes to them), the simulation's
copies, the resolved link set, the simulation clock and the stop flag set by
the effect cleanup's `simulation.stop()`. -/
structure EngineState where
  callerNodes : List Device
  callerLinks : List Link
  simNodes : List SimNode
  simLinks : List ResolvedLink
  alpha : Rat
  alphaTargetVal : Rat
  stopped : Bool
  phase : SimPhase
  tickCount : Nat
deriving DecidableEq, Repr

/-- Replace the element at index `i` (out-of-range indices leave the list
unchanged). -/
def modifyAt {α : Type} (l : List α) (i : Nat) (f : α → α) : List α :=
  match l, i with
  | [], _ => []
  | a :: as, 0 => f a :: as
  | a :: as, n + 1 => a :: modifyAt as n f

/-- Map with the element's index, starting the count at `k`. -/
def mapIdxFrom {α β : Type} (f : Nat → α → β) : Nat → List α → List β
  | _, [] => []
  | k, a :: as => f k a :: mapIdxFrom f (k + 1) as

/-- Modelled from the spec: the simulation engine initializes every node's
position at start (§2, §4.2).  The concrete placement used by the library (a
deterministic spiral) is irrelevant to every claim; any deterministic
per-index placement represents it. -/
def initialPlace (i : Nat) (d : Device) : SimNode :=
  { device := d, x := (i : Rat) * 10, y := (i : Rat) * 7, vx := 0, vy := 0 }

/-- The topology effect body (the `useEffect` of `TopologyGraph.tsx` with
`safeNodes`/`safeLinks`): shallow-copy the caller's nodes into simulation
nodes, resolve the links against them, and start the simulation clock.  Per
the spec's failure semantics an empty node set yields a no-op simulation that
never reaches `Running`, so its phase starts and stays `Cold`. -/
def mount (nodes : List Device) (links : List Link) : EngineState :=
  let simNodes := mapIdxFrom initialPlace 0 nodes
  { callerNodes := nodes
    callerLinks := links
    simNodes := simNodes
    simLinks := resolveLinks simNodes links
    alpha := 1
    alphaTargetVal := 0
    stopped := false
    phase := if simNodes.isEmpty then SimPhase.Cold else SimPhase.Running
    tickCount := 0 }

/-- The first revision of `TopologyGraph.tsx` guards its effect with
`if (!svgRef.current || !wrapperRef.current || nodes.length === 0) return;`:
with an empty node set the effect returns before any simulation or drawing is
created. -/
def mountGuardedV1 (nodes : List Device) (links : List Link) : Option EngineState :=
  if nodes.isEmpty then none else some (mount nodes links)

/-- A force model: the per-tick force contribution on the node at a given
index, computed from the snapshot of all nodes.  The claims hold for every
force model, covering in particular the spring/repulsion/centering/collision
composition configured in the source (`forceLink`, `forceManyBody`,
`forceCenter`, `forceCollide`), whose numeric code lives in the `d3` library,
not under `src/`. -/
def ForceModel : Type := List SimNode → Nat → Rat × Rat

/-- Velocity damping factor applied each integration step (library default;
the exact value is irrelevant to the claims). -/
def velocityDecay : Rat := 6 / 10

/-- Alpha relaxation rate toward the alpha target (library default scale;
the exact value is irrelevant to the claims). -/
def alphaDecayRate : Rat := 228 / 10000

/-- Alpha threshold below which the simulation settles. -/
def alphaMin : Rat := 1 / 1000

/-- One integration step on a single node, given its force contribution:
accumulate the force into the damped velocity, integrate velocity into
position, and then, per the pin semantics, a pinned coordinate overrides the
integrated one (the node is an immovable anchor while `fx`/`fy` are set). -/
def integrateNode (f : Rat × Rat) (n : SimNode) : SimNode :=
  let vx := (n.vx + f.1) * velocityDecay
  let vy := (n.vy + f.2) * velocityDecay
  let n1 : SimNode := { n with vx := vx, vy := vy, x := n.x + vx, y := n.y + vy }
  let n2 : SimNode :=
    match n.fx with
    | some px => { n1 with x := px, vx := 0 }
    | none => n1
  match n.fy with
  | some py => { n2 with y := py, vy := 0 }
  | none => n2

/-- Modelled from the spec (§4.2): one tick applies the forces to the nodes,
integrates, relaxes alpha toward the alpha target, and settles once alpha
falls below the threshold. -/
def applyTick (F : ForceModel) (s : EngineState) : EngineState :=
  let snapshot := s.simNodes
  let alphaNext := s.alpha + (s.alphaTargetVal - s.alpha) * alphaDecayRate
  { s with
    simNodes := mapIdxFrom (fun i n => integrateNode (F snapshot i) n) 0 snapshot
    alpha := alphaNext
    tickCount := s.tickCount + 1
    phase := if alphaNext < alphaMin then SimPhase.Settled else SimPhase.Running }

/-- One firing of the periodic tick callback.  A stopped simulation (the
effect cleanup ran `simulation.stop()`) fires nothing; per the spec's failure
semantics an empty node set is a no-op simulation that performs no work. -/
def schedulerStep (F : ForceModel) (s : EngineState) : EngineState :=
  if s.stopped then s
  else if s.simNodes.isEmpty then s
  else applyTick F s

/-- `n` consecutive firings of the periodic tick callback. -/
def iterateTicks (F : ForceModel) : Nat → EngineState → EngineState
  | 0, s => s
  | n + 1, s => iterateTicks F n (schedulerStep F s)

/-- The effect cleanup from `TopologyGraph.tsx`: `simulation.stop()`. -/
def stopEngine (s : EngineState) : EngineState :=
  { s with stopped := true }

/-- `dragstarted` from `TopologyGraph.tsx`: when no other gesture is active,
`simulation.alphaTarget(0.3).restart()` reheats the simulation, then the
subject's pinned position is set to its current position (`event.subject.x`,
which at drag start equals the gesture's pointer location). -/
def dragstarted (active : Bool) (i : Nat) (s : EngineState) : EngineState :=
  let s1 :=
    if active then s
    else { s with alphaTargetVal := 3 / 10, stopped := false, phase := SimPhase.Reheated }
  { s1 with simNodes := modifyAt s1.simNodes i (fun n => { n with fx := some n.x, fy := some n.y }) }

/-- `dragged` from `TopologyGraph.tsx`: the subject's pin follows the pointer
(`event.x`, `event.y`). -/
def dragged (i : Nat) (px py : Rat) (s : EngineState) : EngineState :=
  { s with simNodes := modifyAt s.simNodes i (fun n => { n with fx := some px, fy := some py }) }

/-- `dragended` from `TopologyGraph.tsx`: when no other gesture remains
active, `simulation.alphaTarget(0)`, then the subject's pin is cleared
(`fx = null`, `fy = null`). -/
def dragended (active : Bool) (i : Nat) (s : EngineState) : EngineState :=
  let s1 := if active then s else { s with alphaTargetVal := 0 }
  { s1 with simNodes := modifyAt s1.simNodes i (fun n => { n with fx := none, fy := none }) }

/-- The events a mounted topology view processes. -/
inductive EngineOp where
  | tick
  | dragStart (active : Bool) (i : Nat)
  | dragMove (i : Nat) (px py : Rat)
  | dragEnd (active : Bool) (i : Nat)
deriving DecidableEq, Repr

/-- Apply one event to the engine state. -/
def applyOp (F : ForceModel) : EngineOp → EngineState → EngineState
  | EngineOp.tick, s => schedulerStep F s
  | EngineOp.dragStart a i, s => dragstarted a i s
  | EngineOp.dragMove i px py, s => dragged i px py s
  | EngineOp.dragEnd a i, s => dragended a i s

/-- Apply a sequence of events left to right. -/
def applyOps (F : ForceModel) (ops : List EngineOp) (s : EngineState) : EngineState :=
  ops.foldl (fun t op => applyOp F op t) s

/-- One rendered link line: the `x1 y1 x2 y2` attributes the tick handler
assigns. -/
structure LineAttrs where
  x1 : Rat
  y1 : Rat
  x2 : Rat
  y2 : Rat
deriving DecidableEq, Repr

/-- A drawn frame: one line per resolved link and one translate transform per
node, exactly what the tick handler of `TopologyGraph.tsx` writes. -/
structure Frame where
  lines : List LineAttrs
  nodeTransforms : List (Rat × Rat)
deriving DecidableEq, Repr

/-- The tick handler's per-link assignment: `x1 = d.source.x`,
`y1 = d.source.y`, `x2 = d.target.x`, `y2 = d.target.y`, reading the resolved
endpoint node objects.  A dangling endpoint reference (index outside the node
array) would be the crash `d.source.x` on `undefined`, modelled as `none`. -/
def renderLinkLine (ns : List SimNode) (rl : ResolvedLink) : Option LineAttrs :=
  match ns.get? rl.sourceIdx, ns.get? rl.targetIdx with
  | some sn, some tn => some { x1 := sn.x, y1 := sn.y, x2 := tn.x, y2 := tn.y }
  | _, _ => none

/-- Render every resolved link, failing if any endpoint reference dangles. -/
def renderLines (ns : List SimNode) : List ResolvedLink → Option (List LineAttrs)
  | [] => some []
  | rl :: rls =>
      match renderLinkLine ns rl, renderLines ns rls with
      | some la, some rest => some (la :: rest)
      | _, _ => none

/-- The frame drawn from the current engine state: what the tick handler of
`TopologyGraph.tsx` writes into the line and node-group elements
(`translate(d.x, d.y)` per node). -/
def renderFrame (s : EngineState) : Option Frame :=
  match renderLines s.simNodes s.simLinks with
  | some lines => some { lines := lines, nodeTransforms := s.simNodes.map (fun n => (n.x, n.y)) }
  | none => none

/-- A link is kept exactly when both its endpoint ids occur in the caller's
node list. -/
def linkKept (nodes : List Device) (l : Link) : Bool :=
  (nodes.any (fun d => d.id == l.source)) && (nodes.any (fun d => d.id == l.target))

/-! ### Viewport zoom

`TopologyGraph.tsx` configures `d3Zoom().scaleExtent([0.1, 4])`.  The
clamping of the scale to the extent happens inside the zoom behavior of the
`d3` library, not under `src/`. -/

/-- Lower scale bound from `scaleExtent([0.1, 4])`. -/
def kMinScale : Rat := 1 / 10

/-- Upper scale bound from `scaleExtent([0.1, 4])`. -/
def kMaxScale : Rat := 4

/-- Modelled from the spec: the zoom behavior bounds the viewport scale `k`
to `[kMin, kMax]`; any requested scale is clamped into the configured
extent. -/
def clampScale (k : Rat) : Rat :=
  max kMinScale (min kMaxScale k)

/-- One wheel/pinch input multiplying the current scale by a factor, clamped
into the configured extent. -/
def zoomStep (k : Rat) (factor : Rat) : Rat :=
  clampScale (k * factor)

/-- Every scale value the viewport passes through, starting at `k0`, under a
sequence of zoom inputs. -/
def zoomTrace (k0 : Rat) : List Rat → List Rat
  | [] => [k0]
  | f :: fs => k0 :: zoomTrace (zoomStep k0 f) fs

/-! ### Click vs. drag disambiguation

The node-click handler of `TopologyGraph.tsx` calls `onNodeClick(d)`,
synchronously raising one node-selected event carrying the node.  Whether a
pointer-down/up pair reaches that handler as a click or is consumed by the
drag behavior is decided inside the `d3` drag behavior, not under `src/`. -/

/-- One pointer gesture over a node: the pointer-down location and the
intervening pointer-move locations before pointer-up. -/
structure PointerGesture where
  device : Device
  downX : Rat
  downY : Rat
  moves : List (Rat × Rat)
deriving DecidableEq, Repr

/-- Modelled from the spec: the gesture moved beyond the small pixel
threshold (squared distance `t2`) when some intervening pointer position is
farther than the threshold from the pointer-down location. -/
def exceedsClickThreshold (t2 : Rat) (g : PointerGesture) : Bool :=
  g.moves.any (fun p =>
    (p.1 - g.downX) * (p.1 - g.downX) + (p.2 - g.downY) * (p.2 - g.downY) > t2)

/-- Modelled from the spec: a gesture within the threshold is classified as a
click and reaches the source's click handler, which raises exactly one
node-selected event carrying the node's identity; a gesture beyond the
threshold is classified as a drag and raises no selection event. -/
def gestureSelectionEvents (t2 : Rat) (g : PointerGesture) : List String :=
  if exceedsClickThreshold t2 g then [] else [g.device.id]

/-! ### Mock data generation (`src/services/mockData.ts`)

`Math.random()` is modelled as an explicit stream `g : Nat → Rat` of draws
consumed in evaluation order; each function threads the index of the next
unconsumed draw.  JavaScript's `&&` and `?:` short-circuit, so a draw on a
skipped branch consumes nothing, exactly as in the source. -/

/-- `Math.floor(q)` for a nonnegative quantity, as a natural number. -/
def ratFloorNat (q : Rat) : Nat :=
  q.floor.toNat

/-- `NetconfDeviceConfig` from `src/types.ts`: the configured identity of a
device, before any runtime status is attached. -/
structure NetconfDeviceConfig where
  id : String
  name : String
  ip : String
  port : Int
  username : String
  password : Option String := none
  authType : Option AuthType := none
  sshKey : Option String := none
  type : DeviceType
deriving DecidableEq, Repr

/-- `generateDeviceStatus` from `src/services/mockData.ts`: spreads the
config into a device (`{...config, status, uptime, cpuLoad, memoryUsage}`)
with runtime fields filled from random draws.  Returns the device together
with the index of the next unconsumed draw. -/
def generateDeviceStatus (g : Nat → Rat) (k : Nat) (config : NetconfDeviceConfig) :
    Device × Nat :=
  let isOffline := g k > 9 / 10
  if isOffline then
    ({ id := config.id, name := config.name, ip := config.ip, port := config.port
       username := config.username, password := config.password
       authType := config.authType, sshKey := config.sshKey, type := config.type
       status := DeviceStatus.OFFLINE
       uptime := "0d"
       cpuLoad := 0
       memoryUsage := 0 }, k + 1)
  else
    let isWarning := g (k + 1) > 8 / 10
    let status := if isWarning then DeviceStatus.WARNING else DeviceStatus.ONLINE
    let uptime :=
      toString (ratFloorNat (g (k + 2) * 100)) ++ "d "
        ++ toString (ratFloorNat (g (k + 3) * 24)) ++ "h"
    let cpuLoad := (ratFloorNat (g (k + 4) * (if isWarning then 100 else 60)) : Int)
    let memoryUsage := (ratFloorNat (g (k + 5) * 90) : Int)
    ({ id := config.id, name := config.name, ip := config.ip, port := config.port
       username := config.username, password := config.password
       authType := config.authType, sshKey := config.sshKey, type := config.type
       status := status
       uptime := uptime
       cpuLoad := cpuLoad
       memoryUsage := memoryUsage }, k + 6)

/-- `configs.map(generateDeviceStatus)` with the random stream threaded
through the calls in order. -/
def generateDevices (g : Nat → Rat) : Nat → List NetconfDeviceConfig → List Device × Nat
  | k, [] => ([], k)
  | k, c :: cs =>
      let (d, k1) := generateDeviceStatus g k c
      let (ds, k2) := generateDevices g k1 cs
      (d :: ds, k2)

/-- The ring link the loop of `generateTopologyFromConfig` pushes for each
node: to the next node in order, with a random bandwidth, DOWN when either
endpoint is offline. -/
def ringLinkFor (g : Nat → Rat) (k : Nat) (source target : Device) : Link :=
  { source := source.id
    target := target.id
    bandwidth := if g k > 1 / 2 then "10Gbps" else "1Gbps"
    status :=
      if source.status = DeviceStatus.OFFLINE ∨ target.status = DeviceStatus.OFFLINE
      then LinkStatus.DOWN else LinkStatus.UP }

/-- The extra mesh link `generateTopologyFromConfig` randomly pushes. -/
def meshLinkFor (source randomTarget : Device) : Link :=
  { source := source.id
    target := randomTarget.id
    bandwidth := "40Gbps"
    status := LinkStatus.UP }

/-- The links one iteration of the loop of `generateTopologyFromConfig`
pushes, with the index of the next unconsumed draw: always the ring link;
when there are more than three nodes and the draw passes, also a mesh link
to a random node unless it would connect the source to itself or duplicate
the ring target. -/
def topoNewLinks (g : Nat → Rat) (nodes : List Device) (k : Nat)
    (source target : Device) : List Link × Nat :=
  let ringLink := ringLinkFor g k source target
  if nodes.length > 3 then
    if g (k + 1) > 7 / 10 then
      match nodes.get? (ratFloorNat (g (k + 2) * (nodes.length : Rat))) with
      | some randomTarget =>
          if randomTarget.id ≠ source.id ∧ randomTarget.id ≠ target.id then
            ([ringLink, meshLinkFor source randomTarget], k + 3)
          else ([ringLink], k + 3)
      | none => ([ringLink], k + 3)
    else ([ringLink], k + 2)
  else ([ringLink], k + 1)

/-- The body of the link-generation loop of `generateTopologyFromConfig` for
one index `i`: append the links pushed for the node at `i` and its ring
successor at `(i + 1) % nodes.length`. -/
def topoLinkStep (g : Nat → Rat) (nodes : List Device) (acc : List Link × Nat) (i : Nat) :
    List Link × Nat :=
  match nodes.get? i, nodes.get? ((i + 1) % nodes.length) with
  | some source, some target =>
      let step := topoNewLinks g nodes acc.2 source target
      (acc.1 ++ step.1, step.2)
  | _, _ => acc

/-- `TopologyData` from `src/types.ts`. -/
structure TopologyData where
  nodes : List Device
  links : List Link
deriving DecidableEq, Repr

/-- `generateTopologyFromConfig` from `src/services/mockData.ts`: generate
the device statuses, then, only when there is more than one node, generate
the ring links plus random mesh links. -/
def generateTopologyFromConfig (g : Nat → Rat) (configs : List NetconfDeviceConfig) :
    TopologyData :=
  let nk := generateDevices g 0 configs
  let nodes := nk.1
  let links :=
    if nodes.length > 1 then
      ((List.range nodes.length).foldl (topoLinkStep g nodes) ([], nk.2)).1
    else []
  { nodes := nodes, links := links }

/-! ### List helper lemmas -/

theorem modifyAt_length {α : Type} (l : List α) (i : Nat) (f : α → α) :
    (modifyAt l i f).length = l.length := by
  induction l generalizing i with
  | nil => simp [modifyAt]
  | cons a as ih =>
      cases i with
      | zero => simp [modifyAt]
      | succ n => simp [modifyAt, ih]

theorem modifyAt_get?_ne {α : Type} (l : List α) (i j : Nat) (f : α → α) (h : j ≠ i) :
    (modifyAt l i f).get? j = l.get? j := by
  induction l generalizing i j with
  | nil => simp [modifyAt]
  | cons a as ih =>
      cases i with
      | zero =>
          cases j with
          | zero => exact absurd rfl h
          | succ m => simp [modifyAt]
      | succ n =>
          cases j with
          | zero => simp [modifyAt]
          | succ m =>
              simp only [modifyAt, List.get?]
              exact ih n m (fun hm => h (by simp [hm]))

theorem modifyAt_get?_eq {α : Type} (l : List α) (i : Nat) (f : α → α) :
    (modifyAt l i f).get? i = (l.get? i).map f := by
  induction l generalizing i with
  | nil => simp [modifyAt]
  | cons a as ih =>
      cases i with
      | zero => simp [modifyAt]
      | succ n => simpa [modifyAt] using ih n

theorem mapIdxFrom_length {α β : Type} (f : Nat → α → β) (k : Nat) (l : List α) :
    (mapIdxFrom f k l).length = l.length := by
  induction l generalizing k with
  | nil => simp [mapIdxFrom]
  | cons a as ih => simp [mapIdxFrom, ih]

theorem mapIdxFrom_get? {α β : Type} (f : Nat → α → β) (k j : Nat) (l : List α) :
    (mapIdxFrom f k l).get? j = (l.get? j).map (f (k + j)) := by
  induction l generalizing k j with
  | nil => simp [mapIdxFrom]
  | cons a as ih =>
      cases j with
      | zero => simp [mapIdxFrom]
      | succ m =>
          simp only [mapIdxFrom, List.get?]
          rw [ih (k + 1) m]
          have : k + 1 + m = k + (m + 1) := by omega
          rw [this]

/-! ### Link resolution lemmas -/

theorem findNodeIdx_some (ns : List SimNode) (nid : String) (i : Nat)
    (h : findNodeIdx ns nid = some i) :
    ∃ n, ns.get? i = some n ∧ n.device.id = nid := by
  induction ns generalizing i with
  | nil => simp [findNodeIdx] at h
  | cons n rest ih =>
      by_cases hid : n.device.id = nid
      · simp [findNodeIdx, hid] at h
        exact ⟨n, by simp [← h], hid⟩
      · simp [findNodeIdx, hid] at h
        obtain ⟨j, hj, hji⟩ := h
        obtain ⟨m, hm, hmid⟩ := ih j hj
        exact ⟨m, by simpa [← hji] using hm, hmid⟩

theorem findNodeIdx_isSome (ns : List SimNode) (nid : String) :
    (findNodeIdx ns nid).isSome = ns.any (fun n => n.device.id == nid) := by
  induction ns with
  | nil => simp [findNodeIdx]
  | cons n rest ih =>
      by_cases hid : n.device.id = nid
      · simp [findNodeIdx, hid]
      · simp [findNodeIdx, hid, ih]

theorem mem_resolveLinks (ns : List SimNode) (links : List Link) (rl : ResolvedLink)
    (h : rl ∈ resolveLinks ns links) :
    findNodeIdx ns rl.link.source = some rl.sourceIdx ∧
      findNodeIdx ns rl.link.target = some rl.targetIdx := by
  simp only [resolveLinks, List.mem_filterMap] at h
  obtain ⟨l, _, hl⟩ := h
  cases hs : findNodeIdx ns l.source with
  | none => simp [hs] at hl
  | some s =>
      cases ht : findNodeIdx ns l.target with
      | none => simp [hs, ht] at hl
      | some t =>
          simp only [hs, ht, Option.some.injEq] at hl
          subst hl
          exact ⟨hs, ht⟩

theorem resolveLinks_map_link (ns : List SimNode) (links : List Link) :
    (resolveLinks ns links).map ResolvedLink.link =
      links.filter
        (fun l => (findNodeIdx ns l.source).isSome && (findNodeIdx ns l.target).isSome) := by
  induction links with
  | nil => simp [resolveLinks]
  | cons l rest ih =>
      cases hs : findNodeIdx ns l.source with
      | none => simpa [resolveLinks, List.filterMap_cons, hs, List.filter_cons] using ih
      | some s =>
          cases ht : findNodeIdx ns l.target with
          | none => simpa [resolveLinks, List.filterMap_cons, hs, ht, List.filter_cons] using ih
          | some t => simpa [resolveLinks, List.filterMap_cons, hs, ht, List.filter_cons] using ih

/-! ### Engine frame lemmas: what each event leaves untouched -/

theorem applyOp_callerNodes (F : ForceModel) (op : EngineOp) (s : EngineState) :
    (applyOp F op s).callerNodes = s.callerNodes := by
  cases op with
  | tick =>
      simp only [applyOp, schedulerStep]
      split
      · rfl
      · split
        · rfl
        · rfl
  | dragStart a i =>
      simp only [applyOp, dragstarted]
      split <;> rfl
  | dragMove i px py => rfl
  | dragEnd a i =>
      simp only [applyOp, dragended]
      split <;> rfl

theorem applyOp_callerLinks (F : ForceModel) (op : EngineOp) (s : EngineState) :
    (applyOp F op s).callerLinks = s.callerLinks := by
  cases op with
  | tick =>
      simp only [applyOp, schedulerStep]
      split
      · rfl
      · split
        · rfl
        · rfl
  | dragStart a i =>
      simp only [applyOp, dragstarted]
      split <;> rfl
  | dragMove i px py => rfl
  | dragEnd a i =>
      simp only [applyOp, dragended]
      split <;> rfl

theorem applyOp_simLinks (F : ForceModel) (op : EngineOp) (s : EngineState) :
    (applyOp F op s).simLinks = s.simLinks := by
  cases op with
  | tick =>
      simp only [applyOp, schedulerStep]
      split
      · rfl
      · split
        · rfl
        · rfl
  | dragStart a i =>
      simp only [applyOp, dragstarted]
      split <;> rfl
  | dragMove i px py => rfl
  | dragEnd a i =>
      simp only [applyOp, dragended]
      split <;> rfl

theorem integrateNode_device (f : Rat × Rat) (n : SimNode) :
    (integrateNode f n).device = n.device := by
  simp only [integrateNode]
  cases n.fx <;> cases n.fy <;> rfl

theorem applyOp_simNodes_device (F : ForceModel) (op : EngineOp) (s : EngineState) (j : Nat) :
    ((applyOp F op s).simNodes.get? j).map SimNode.device =
      (s.simNodes.get? j).map SimNode.device := by
  cases op with
  | tick =>
      simp only [applyOp, schedulerStep]
      split
      · rfl
      · split
        · rfl
        · simp only [applyTick, mapIdxFrom_get?]
          cases h : s.simNodes.get? j with
          | none => simp
          | some n => simp [integrateNode_device]
  | dragStart a i =>
      simp only [applyOp, dragstarted]
      by_cases hj : j = i
      · subst hj
        split <;> rw [modifyAt_get?_eq] <;> cases s.simNodes.get? j <;> rfl
      · split <;> rw [modifyAt_get?_ne _ _ _ _ hj]
  | dragMove i px py =>
      simp only [applyOp, dragged]
      by_cases hj : j = i
      · subst hj
        rw [modifyAt_get?_eq]
        cases s.simNodes.get? j <;> rfl
      · rw [modifyAt_get?_ne _ _ _ _ hj]
  | dragEnd a i =>
      simp only [applyOp, dragended]
      by_cases hj : j = i
      · subst hj
        split <;> rw [modifyAt_get?_eq] <;> cases s.simNodes.get? j <;> rfl
      · split <;> rw [modifyAt_get?_ne _ _ _ _ hj]

theorem applyOps_callerNodes (F : ForceModel) (ops : List EngineOp) (s : EngineState) :
    (applyOps F ops s).callerNodes = s.callerNodes := by
  induction ops generalizing s with
  | nil => rfl
  | cons op rest ih =>
      simp only [applyOps, List.foldl_cons] at *
      rw [ih, applyOp_callerNodes]

theorem applyOps_callerLinks (F : ForceModel) (ops : List EngineOp) (s : EngineState) :
    (applyOps F ops s).callerLinks = s.callerLinks := by
  induction ops generalizing s with
  | nil => rfl
  | cons op rest ih =>
      simp only [applyOps, List.foldl_cons] at *
      rw [ih, applyOp_callerLinks]

theorem applyOps_simLinks (F : ForceModel) (ops : List EngineOp) (s : EngineState) :
    (applyOps F ops s).simLinks = s.simLinks := by
  induction ops generalizing s with
  | nil => rfl
  | cons op rest ih =>
      simp only [applyOps, List.foldl_cons] at *
      rw [ih, applyOp_simLinks]

theorem applyOps_simNodes_device (F : ForceModel) (ops : List EngineOp) (s : EngineState)
    (j : Nat) :
    ((applyOps F ops s).simNodes.get? j).map SimNode.device =
      (s.simNodes.get? j).map SimNode.device := by
  induction ops generalizing s with
  | nil => rfl
  | cons op rest ih =>
      simp only [applyOps, List.foldl_cons] at *
      rw [ih, applyOp_simNodes_device]

/-! ### Link well-formedness: every resolved link's endpoint indices point at
nodes carrying the link's endpoint ids -/

/-- Every resolved link of the state points at simulation nodes whose device
ids are the link's source and target ids. -/
def LinksWF (s : EngineState) : Prop :=
  ∀ rl ∈ s.simLinks,
    (∃ sn, s.simNodes.get? rl.sourceIdx = some sn ∧ sn.device.id = rl.link.source) ∧
      (∃ tn, s.simNodes.get? rl.targetIdx = some tn ∧ tn.device.id = rl.link.target)

theorem mount_linksWF (nodes : List Device) (links : List Link) :
    LinksWF (mount nodes links) := by
  intro rl hrl
  have h := mem_resolveLinks _ _ _ hrl
  exact ⟨findNodeIdx_some _ _ _ h.1, findNodeIdx_some _ _ _ h.2⟩

theorem applyOps_linksWF (F : ForceModel) (ops : List EngineOp) (s : EngineState)
    (h : LinksWF s) : LinksWF (applyOps F ops s) := by
  intro rl hrl
  rw [applyOps_simLinks] at hrl
  obtain ⟨⟨sn, hsn, hsid⟩, ⟨tn, htn, htid⟩⟩ := h rl hrl
  constructor
  · have := applyOps_simNodes_device F ops s rl.sourceIdx
    rw [hsn] at this
    cases h' : (applyOps F ops s).simNodes.get? rl.sourceIdx with
    | none => rw [h'] at this; simp at this
    | some sn' =>
        rw [h'] at this
        simp only [Option.map_some'] at this
        exact ⟨sn', rfl, by rw [Option.some.injEq] at this; rw [this, hsid]⟩
  · have := applyOps_simNodes_device F ops s rl.targetIdx
    rw [htn] at this
    cases h' : (applyOps F ops s).simNodes.get? rl.targetIdx with
    | none => rw [h'] at this; simp at this
    | some tn' =>
        rw [h'] at this
        simp only [Option.map_some'] at this
        exact ⟨tn', rfl, by rw [Option.some.injEq] at this; rw [this, htid]⟩

/-! ### Rendering lemmas -/

theorem renderLines_spec (ns : List SimNode) (rls : List ResolvedLink)
    (h : ∀ rl ∈ rls,
      (∃ sn, ns.get? rl.sourceIdx = some sn) ∧ (∃ tn, ns.get? rl.targetIdx = some tn)) :
    ∃ las, renderLines ns rls = some las ∧ las.length = rls.length ∧
      ∀ k rl, rls.get? k = some rl →
        ∀ sn tn, ns.get? rl.sourceIdx = some sn → ns.get? rl.targetIdx = some tn →
          las.get? k = some { x1 := sn.x, y1 := sn.y, x2 := tn.x, y2 := tn.y } := by
  induction rls with
  | nil => exact ⟨[], rfl, rfl, fun k rl hk => by simp at hk⟩
  | cons rl rest ih =>
      obtain ⟨⟨sn, hsn⟩, ⟨tn, htn⟩⟩ := h rl (List.mem_cons_self rl rest)
      obtain ⟨las, hlas, hlen, hget⟩ := ih (fun r hr => h r (List.mem_cons_of_mem rl hr))
      refine ⟨{ x1 := sn.x, y1 := sn.y, x2 := tn.x, y2 := tn.y } :: las, ?_, by simp [hlen], ?_⟩
      · simp only [renderLines, renderLinkLine, hsn, htn, hlas]
      · intro k r hk sn' tn' hsn' htn'
        cases k with
        | zero =>
            simp only [List.get?] at hk
            rw [Option.some.injEq] at hk
            subst hk
            rw [hsn] at hsn'
            rw [htn] at htn'
            rw [Option.some.injEq] at hsn' htn'
            subst hsn'
            subst htn'
            rfl
        | succ m =>
            simp only [List.get?] at hk ⊢
            exact hget m r hk sn' tn' hsn' htn'

theorem renderFrame_of_linksWF (s : EngineState) (h : LinksWF s) :
    ∃ f, renderFrame s = some f ∧ f.lines.length = s.simLinks.length ∧
      f.nodeTransforms = s.simNodes.map (fun n => (n.x, n.y)) ∧
      ∀ k rl, s.simLinks.get? k = some rl →
        ∃ sn tn, s.simNodes.get? rl.sourceIdx = some sn ∧
          s.simNodes.get? rl.targetIdx = some tn ∧
          sn.device.id = rl.link.source ∧ tn.device.id = rl.link.target ∧
          f.lines.get? k = some { x1 := sn.x, y1 := sn.y, x2 := tn.x, y2 := tn.y } := by
  obtain ⟨las, hlas, hlen, hget⟩ :=
    renderLines_spec s.simNodes s.simLinks
      (fun rl hrl => ⟨⟨(h rl hrl).1.choose, (h rl hrl).1.choose_spec.1⟩,
        ⟨(h rl hrl).2.choose, (h rl hrl).2.choose_spec.1⟩⟩)
  refine ⟨{ lines := las, nodeTransforms := s.simNodes.map (fun n => (n.x, n.y)) }, ?_, hlen, rfl, ?_⟩
  · simp only [renderFrame, hlas]
  · intro k rl hk
    have hmem : rl ∈ s.simLinks := List.get?_mem hk
    obtain ⟨⟨sn, hsn, hsid⟩, ⟨tn, htn, htid⟩⟩ := h rl hmem
    exact ⟨sn, tn, hsn, htn, hsid, htid, hget k rl hk sn tn hsn htn⟩

theorem any_device_mapIdxFrom (nodes : List Device) (k : Nat) (nid : String) :
    ((mapIdxFrom initialPlace k nodes).any (fun n => n.device.id == nid)) =
      nodes.any (fun d => d.id == nid) := by
  induction nodes generalizing k with
  | nil => rfl
  | cons d ds ih => simp [mapIdxFrom, initialPlace, ih]

theorem mount_simLinks_eq_filter (nodes : List Device) (links : List Link) :
    (mount nodes links).simLinks.map ResolvedLink.link = links.filter (linkKept nodes) := by
  show (resolveLinks (mapIdxFrom initialPlace 0 nodes) links).map ResolvedLink.link =
    links.filter (linkKept nodes)
  rw [resolveLinks_map_link]
  refine List.filter_congr (fun l _ => ?_)
  simp only [linkKept, findNodeIdx_isSome, any_device_mapIdxFrom]

/-! ### Claim theorems -/

/-- C1: a link whose source or target id is absent from the supplied node
list is dropped — excluded from the simulation's internal link set and from
the rendered output — without crashing the engine, and the remaining links
are laid out and rendered unaffected: the internal link set is exactly the
input links whose endpoints both resolve, in input order, and the frame
renders exactly one line per kept link. -/
theorem c1_dangling_links_dropped (nodes : List Device) (links : List Link) :
    (mount nodes links).simLinks.map ResolvedLink.link = links.filter (linkKept nodes) ∧
      ∃ f, renderFrame (mount nodes links) = some f ∧
        f.lines.length = (links.filter (linkKept nodes)).length := by
  refine ⟨mount_simLinks_eq_filter nodes links, ?_⟩
  obtain ⟨f, hf, hlen, _, _⟩ := renderFrame_of_linksWF (mount nodes links) (mount_linksWF nodes links)
  refine ⟨f, hf, ?_⟩
  rw [hlen, ← mount_simLinks_eq_filter nodes links, List.length_map]

/-- C2: once the effect cleanup has run (`simulation.stop()`), no further
simulation tick fires — any number of subsequent firings of the periodic
tick callback leave the stopped state (in particular its tick count and its
rendered output) completely unchanged. -/
theorem c2_no_tick_after_cleanup (F : ForceModel) (s : EngineState) (n : Nat) :
    iterateTicks F n (stopEngine s) = stopEngine s ∧
      (iterateTicks F n (stopEngine s)).tickCount = s.tickCount := by
  have hstep : schedulerStep F (stopEngine s) = stopEngine s := by
    simp [schedulerStep, stopEngine]
  have hiter : iterateTicks F n (stopEngine s) = stopEngine s := by
    induction n with
    | zero => rfl
    | succ m ih => simp only [iterateTicks, hstep]; exact ih
  exact ⟨hiter, by rw [hiter]; rfl⟩

/-- C3: for an empty node set (and any link list), the first revision's
effect guard returns before creating anything, and the mounted engine
performs no simulation work under any number of tick firings, never leaves
the `Cold` phase (never reaches `Running`), and renders an empty frame
without error. -/
theorem c3_empty_nodes_noop (links : List Link) (F : ForceModel) (n : Nat) :
    mountGuardedV1 [] links = none ∧
      iterateTicks F n (mount [] links) = mount [] links ∧
      (iterateTicks F n (mount [] links)).phase = SimPhase.Cold ∧
      (iterateTicks F n (mount [] links)).tickCount = 0 ∧
      renderFrame (mount [] links) = some { lines := [], nodeTransforms := [] } := by
  have hnodes : (mount [] links).simNodes = [] := rfl
  have hstep : schedulerStep F (mount [] links) = mount [] links := by
    simp [schedulerStep, hnodes]
  have hiter : iterateTicks F n (mount [] links) = mount [] links := by
    induction n with
    | zero => rfl
    | succ m ih => simp only [iterateTicks, hstep]; exact ih
  have hlinks : (mount [] links).simLinks = [] := by
    show resolveLinks (mapIdxFrom initialPlace 0 []) links = []
    simp [resolveLinks, mapIdxFrom, findNodeIdx]
  refine ⟨rfl, hiter, by rw [hiter]; rfl, by rw [hiter]; rfl, ?_⟩
  simp only [renderFrame, hlinks, hnodes, renderLines, List.map_nil]

/-- C4: starting a drag on a node (with no other gesture active) raises the
simulation's alpha target to 0.3 (`Reheated`) and pins that node at its
current position — which at drag start is the gesture's pointer location,
since the drag behavior dispatches the start event with the subject's
coordinates; each pointer move re-pins the node at the new pointer location;
releasing clears the pin and resets the alpha target, so on the next tick
the node is updated by free force integration, not by a pin override; and
throughout the gesture every other node is left completely untouched (no
direct position assignment). -/
theorem c4_drag_pin_protocol (F : ForceModel) (s : EngineState) (i : Nat) (sn : SimNode)
    (h : s.simNodes.get? i = some sn) :
    ((dragstarted false i s).alphaTargetVal = 3 / 10 ∧
      (dragstarted false i s).phase = SimPhase.Reheated ∧
      (dragstarted false i s).simNodes.get? i =
        some { sn with fx := some sn.x, fy := some sn.y }) ∧
    (∀ (t : EngineState) (m : SimNode) (px py : Rat), t.simNodes.get? i = some m →
      (dragged i px py t).simNodes.get? i = some { m with fx := some px, fy := some py }) ∧
    (∀ (t : EngineState) (m : SimNode), t.simNodes.get? i = some m →
      (dragended false i t).simNodes.get? i = some { m with fx := none, fy := none } ∧
        (dragended false i t).alphaTargetVal = 0) ∧
    (∀ (t : EngineState) (j : Nat) (a : Bool) (px py : Rat), j ≠ i →
      (dragstarted a i t).simNodes.get? j = t.simNodes.get? j ∧
        (dragged i px py t).simNodes.get? j = t.simNodes.get? j ∧
        (dragended a i t).simNodes.get? j = t.simNodes.get? j) ∧
    (∀ (t : EngineState) (m : SimNode), t.stopped = false → t.simNodes.get? i = some m →
      m.fx = none → m.fy = none →
      (schedulerStep F t).simNodes.get? i =
        some { m with
          vx := (m.vx + (F t.simNodes i).1) * velocityDecay
          vy := (m.vy + (F t.simNodes i).2) * velocityDecay
          x := m.x + (m.vx + (F t.simNodes i).1) * velocityDecay
          y := m.y + (m.vy + (F t.simNodes i).2) * velocityDecay }) := by
  refine ⟨⟨rfl, rfl, ?_⟩, ?_, ?_, ?_, ?_⟩
  · show (modifyAt s.simNodes i _).get? i = _
    rw [modifyAt_get?_eq, h]
    rfl
  · intro t m px py ht
    show (modifyAt t.simNodes i _).get? i = _
    rw [modifyAt_get?_eq, ht]
    rfl
  · intro t m ht
    constructor
    · show (modifyAt t.simNodes i _).get? i = _
      rw [modifyAt_get?_eq, ht]
      rfl
    · rfl
  · intro t j a px py hj
    refine ⟨?_, ?_, ?_⟩
    · show (modifyAt (if a then t else _).simNodes i _).get? j = _
      split <;> rw [modifyAt_get?_ne _ _ _ _ hj]
    · exact modifyAt_get?_ne _ _ _ _ hj
    · show (modifyAt (if a then t else _).simNodes i _).get? j = _
      split <;> rw [modifyAt_get?_ne _ _ _ _ hj]
  · intro t m hstop ht hfx hfy
    have hne : t.simNodes.isEmpty = false := by
      cases hl : t.simNodes with
      | nil => rw [hl] at ht; simp at ht
      | cons a as => rfl
    have hint : integrateNode (F t.simNodes i) m =
        { m with
          vx := (m.vx + (F t.simNodes i).1) * velocityDecay
          vy := (m.vy + (F t.simNodes i).2) * velocityDecay
          x := m.x + (m.vx + (F t.simNodes i).1) * velocityDecay
          y := m.y + (m.vy + (F t.simNodes i).2) * velocityDecay } := by
      simp [integrateNode, hfx, hfy]
    simp only [schedulerStep, hstop, hne, Bool.false_eq_true, if_false, applyTick]
    rw [mapIdxFrom_get?, ht, Nat.zero_add, Option.map_some', hint]

/-! ### Concrete fixtures for the witnesses -/

/-- A concrete online router. -/
def devA : Device :=
  { id := "a", name := "Core-Router-01", ip := "192.168.10.1", port := 830,
    username := "admin", type := DeviceType.ROUTER, status := DeviceStatus.ONLINE,
    uptime := "1d 2h", cpuLoad := 10, memoryUsage := 20 }

/-- A concrete offline server. -/
def devB : Device :=
  { id := "b", name := "Compute-01", ip := "192.168.10.4", port := 830,
    username := "admin", type := DeviceType.SERVER, status := DeviceStatus.OFFLINE,
    uptime := "0d", cpuLoad := 0, memoryUsage := 0 }

/-- A concrete link between the two fixture devices. -/
def linkAB : Link :=
  { source := "a", target := "b", bandwidth := "10Gbps", status := LinkStatus.UP }

/-- The trivial force model, used to instantiate witnesses. -/
def zeroForce : ForceModel := fun _ _ => (0, 0)

/-- Witness for C4 at a concrete two-node topology: node 0 exists, and the
drag protocol conclusions hold for it. -/
theorem c4_drag_pin_protocol_witness :
    (mount [devA, devB] [linkAB]).simNodes.get? 0 = some (initialPlace 0 devA) ∧
    (((dragstarted false 0 (mount [devA, devB] [linkAB])).alphaTargetVal = 3 / 10 ∧
      (dragstarted false 0 (mount [devA, devB] [linkAB])).phase = SimPhase.Reheated ∧
      (dragstarted false 0 (mount [devA, devB] [linkAB])).simNodes.get? 0 =
        some { initialPlace 0 devA with
          fx := some (initialPlace 0 devA).x, fy := some (initialPlace 0 devA).y }) ∧
    (∀ (t : EngineState) (m : SimNode) (px py : Rat), t.simNodes.get? 0 = some m →
      (dragged 0 px py t).simNodes.get? 0 = some { m with fx := some px, fy := some py }) ∧
    (∀ (t : EngineState) (m : SimNode), t.simNodes.get? 0 = some m →
      (dragended false 0 t).simNodes.get? 0 = some { m with fx := none, fy := none } ∧
        (dragended false 0 t).alphaTargetVal = 0) ∧
    (∀ (t : EngineState) (j : Nat) (a : Bool) (px py : Rat), j ≠ 0 →
      (dragstarted a 0 t).simNodes.get? j = t.simNodes.get? j ∧
        (dragged 0 px py t).simNodes.get? j = t.simNodes.get? j ∧
        (dragended a 0 t).simNodes.get? j = t.simNodes.get? j) ∧
    (∀ (t : EngineState) (m : SimNode), t.stopped = false → t.simNodes.get? 0 = some m →
      m.fx = none → m.fy = none →
      (schedulerStep zeroForce t).simNodes.get? 0 =
        some { m with
          vx := (m.vx + (zeroForce t.simNodes 0).1) * velocityDecay
          vy := (m.vy + (zeroForce t.simNodes 0).2) * velocityDecay
          x := m.x + (m.vx + (zeroForce t.simNodes 0).1) * velocityDecay
          y := m.y + (m.vy + (zeroForce t.simNodes 0).2) * velocityDecay })) :=
  ⟨rfl, c4_drag_pin_protocol zeroForce (mount [devA, devB] [linkAB]) 0 (initialPlace 0 devA) rfl⟩

/-- C5: a pointer-down/up pair whose intervening movement stays within the
pixel threshold raises exactly one node-selected event carrying the node's
identity; a gesture with movement beyond the threshold raises no selection
event. -/
theorem c5_click_vs_drag (t2 : Rat) (g : PointerGesture) :
    (exceedsClickThreshold t2 g = false →
      gestureSelectionEvents t2 g = [g.device.id]) ∧
      (exceedsClickThreshold t2 g = true → gestureSelectionEvents t2 g = []) := by
  constructor <;> intro h <;> simp [gestureSelectionEvents, h]

/-- A pointer gesture whose movement stays within the threshold. -/
def clickGesture : PointerGesture :=
  { device := devA, downX := 0, downY := 0, moves := [(1, 1)] }

/-- A pointer gesture whose movement exceeds the threshold. -/
def dragGesture : PointerGesture :=
  { device := devA, downX := 0, downY := 0, moves := [(50, 0)] }

/-- Witness for C5: with threshold 4, the small-movement gesture produces
exactly the one selection event `["a"]` and the large-movement gesture
produces none. -/
theorem c5_click_vs_drag_witness :
    (exceedsClickThreshold 4 clickGesture = false ∧
      gestureSelectionEvents 4 clickGesture = ["a"]) ∧
      (exceedsClickThreshold 4 dragGesture = true ∧
        gestureSelectionEvents 4 dragGesture = []) :=
  ⟨⟨by norm_num [exceedsClickThreshold, clickGesture],
      (c5_click_vs_drag 4 clickGesture).1 (by norm_num [exceedsClickThreshold, clickGesture])⟩,
    ⟨by norm_num [exceedsClickThreshold, dragGesture],
      (c5_click_vs_drag 4 dragGesture).2 (by norm_num [exceedsClickThreshold, dragGesture])⟩⟩

theorem zoomTrace_bounded (fs : List Rat) (k0 : Rat)
    (h1 : kMinScale ≤ k0) (h2 : k0 ≤ kMaxScale) :
    ∀ k ∈ zoomTrace k0 fs, kMinScale ≤ k ∧ k ≤ kMaxScale := by
  induction fs generalizing k0 with
  | nil =>
      intro k hk
      simp only [zoomTrace, List.mem_singleton] at hk
      exact hk ▸ ⟨h1, h2⟩
  | cons f fs ih =>
      intro k hk
      simp only [zoomTrace, List.mem_cons] at hk
      rcases hk with hk | hk
      · exact hk ▸ ⟨h1, h2⟩
      · refine ih (zoomStep k0 f) ?_ ?_ k hk
        · exact le_max_left _ _
        · exact max_le (by norm_num [kMinScale, kMaxScale]) (min_le_left _ _)

/-- C6: the viewport scale is an invariant of every zoom input sequence —
starting from the identity transform (`k = 1`), every scale value the
viewport passes through stays within the configured extent
`[kMin, kMax] = [0.1, 4]`. -/
theorem c6_zoom_scale_invariant (fs : List Rat) (k : Rat) (hk : k ∈ zoomTrace 1 fs) :
    kMinScale ≤ k ∧ k ≤ kMaxScale :=
  zoomTrace_bounded fs 1 (by norm_num [kMinScale]) (by norm_num [kMaxScale]) k hk

/-- Witness for C6: the scale reached by a single 100-fold zoom-in input is
in the trace and is bounded by the extent. -/
theorem c6_zoom_scale_invariant_witness :
    (4 : Rat) ∈ zoomTrace 1 [100] ∧ kMinScale ≤ (4 : Rat) ∧ (4 : Rat) ≤ kMaxScale :=
  ⟨by norm_num [zoomTrace, zoomStep, clampScale, kMinScale, kMaxScale],
    c6_zoom_scale_invariant [100] 4
      (by norm_num [zoomTrace, zoomStep, clampScale, kMinScale, kMaxScale])⟩

/-- C7: in every state the mounted view can reach (any force model, any
sequence of ticks and drag events), the frame renders without error and, for
every resolved link, the rendered line's two endpoints equal the current
positions of the nodes carrying the link's source and target ids — no stale
or drifting coordinates. -/
theorem c7_lines_track_positions (F : ForceModel) (nodes : List Device) (links : List Link)
    (ops : List EngineOp) :
    ∃ f, renderFrame (applyOps F ops (mount nodes links)) = some f ∧
      ∀ k rl, (applyOps F ops (mount nodes links)).simLinks.get? k = some rl →
        ∃ sn tn,
          (applyOps F ops (mount nodes links)).simNodes.get? rl.sourceIdx = some sn ∧
            (applyOps F ops (mount nodes links)).simNodes.get? rl.targetIdx = some tn ∧
            sn.device.id = rl.link.source ∧ tn.device.id = rl.link.target ∧
            f.lines.get? k = some { x1 := sn.x, y1 := sn.y, x2 := tn.x, y2 := tn.y } := by
  obtain ⟨f, hf, _, _, hmatch⟩ :=
    renderFrame_of_linksWF (applyOps F ops (mount nodes links))
      (applyOps_linksWF F ops (mount nodes links) (mount_linksWF nodes links))
  exact ⟨f, hf, hmatch⟩

/-- Witness for C7 at a concrete two-node, one-link topology after one
tick. -/
theorem c7_lines_track_positions_witness :
    ∃ f, renderFrame (applyOps zeroForce [EngineOp.tick] (mount [devA, devB] [linkAB])) =
        some f ∧
      ∀ k rl,
        (applyOps zeroForce [EngineOp.tick] (mount [devA, devB] [linkAB])).simLinks.get? k =
            some rl →
          ∃ sn tn,
            (applyOps zeroForce [EngineOp.tick]
                  (mount [devA, devB] [linkAB])).simNodes.get? rl.sourceIdx = some sn ∧
              (applyOps zeroForce [EngineOp.tick]
                    (mount [devA, devB] [linkAB])).simNodes.get? rl.targetIdx = some tn ∧
              sn.device.id = rl.link.source ∧ tn.device.id = rl.link.target ∧
              f.lines.get? k = some { x1 := sn.x, y1 := sn.y, x2 := tn.x, y2 := tn.y } :=
  c7_lines_track_positions zeroForce [devA, devB] [linkAB] [EngineOp.tick]

/-- C8: the renderer's health-to-color mapping — ONLINE is drawn green
(`#10b981`), WARNING amber (`#f59e0b`), OFFLINE red (`#ef4444`) — and a link
is stroked red (`#ef4444`) exactly when its health flag is DOWN, otherwise
the neutral link color (`#475569`). -/
theorem c8_health_color_mapping :
    getStatusColor DeviceStatus.ONLINE = "#10b981" ∧
      getStatusColor DeviceStatus.WARNING = "#f59e0b" ∧
      getStatusColor DeviceStatus.OFFLINE = "#ef4444" ∧
      ∀ l : Link, (linkStroke l = "#ef4444" ↔ l.status = LinkStatus.DOWN) ∧
        (l.status = LinkStatus.UP → linkStroke l = "#475569") := by
  refine ⟨rfl, rfl, rfl, fun l => ⟨?_, fun h => by simp [linkStroke, h]⟩⟩
  cases hl : l.status with
  | UP =>
      simp only [linkStroke, hl]
      constructor
      · intro h
        exact absurd h (by decide)
      · intro h
        exact absurd h (by decide)
  | DOWN => simp [linkStroke, hl]

/-- A concrete DOWN link for the C8 witness. -/
def linkDown : Link :=
  { source := "a", target := "b", bandwidth := "1Gbps", status := LinkStatus.DOWN }

/-- Witness for C8: the fixture DOWN link is stroked red and the fixture UP
link is stroked with the neutral color. -/
theorem c8_health_color_mapping_witness :
    linkStroke linkDown = "#ef4444" ∧ linkStroke linkAB = "#475569" :=
  ⟨(c8_health_color_mapping.2.2.2 linkDown).1.mpr rfl,
    (c8_health_color_mapping.2.2.2 linkAB).2 rfl⟩

theorem mapIdxFrom_initialPlace_device (nodes : List Device) (k : Nat) :
    (mapIdxFrom initialPlace k nodes).map SimNode.device = nodes := by
  induction nodes generalizing k with
  | nil => rfl
  | cons d ds ih => simp [mapIdxFrom, initialPlace, ih]

/-- C9: the topology view never mutates the caller-supplied node and link
objects — the engine operates on shallow copies (`safeNodes`/`safeLinks`), so
after initialization and any sequence of ticks and drag gestures the
caller's lists are exactly the ones supplied, while the simulation's nodes
are fresh records wrapping copies of every field of the caller's devices
(the caller's `Device` records carry no `x`, `y`, `vx`, `vy`, `fx`, `fy`
fields at any point). -/
theorem c9_caller_objects_untouched (F : ForceModel) (nodes : List Device) (links : List Link)
    (ops : List EngineOp) :
    (applyOps F ops (mount nodes links)).callerNodes = nodes ∧
      (applyOps F ops (mount nodes links)).callerLinks = links ∧
      (mount nodes links).simNodes.map SimNode.device = nodes := by
  refine ⟨?_, ?_, mapIdxFrom_initialPlace_device nodes 0⟩
  · rw [applyOps_callerNodes]
    rfl
  · rw [applyOps_callerLinks]
    rfl

/-! ### Generated-topology well-formedness (C10) -/

/-- A generated link is well formed for the generated node list: both
endpoint ids are ids of nodes in the list, and a mesh (40Gbps) link never
connects a node to itself. -/
def GeneratedLinkOK (nodes : List Device) (l : Link) : Prop :=
  (l.source ∈ nodes.map Device.id ∧ l.target ∈ nodes.map Device.id) ∧
    (l.bandwidth = "40Gbps" → l.source ≠ l.target)

theorem ringLinkFor_bandwidth_ne (g : Nat → Rat) (k : Nat) (source target : Device) :
    ¬ (ringLinkFor g k source target).bandwidth = "40Gbps" := by
  simp only [ringLinkFor]
  split <;> decide

theorem topoNewLinks_ok (g : Nat → Rat) (nodes : List Device) (k : Nat)
    (source target : Device) (hs : source ∈ nodes) (ht : target ∈ nodes) :
    ∀ l ∈ (topoNewLinks g nodes k source target).1, GeneratedLinkOK nodes l := by
  have hring : GeneratedLinkOK nodes (ringLinkFor g k source target) := by
    refine ⟨⟨?_, ?_⟩, ?_⟩
    · exact List.mem_map_of_mem Device.id hs
    · exact List.mem_map_of_mem Device.id ht
    · intro hb
      exact absurd hb (ringLinkFor_bandwidth_ne g k source target)
  intro l hl
  unfold topoNewLinks at hl
  by_cases h3 : nodes.length > 3
  · rw [if_pos h3] at hl
    by_cases h7 : g (k + 1) > 7 / 10
    · rw [if_pos h7] at hl
      cases hrt : nodes.get? (ratFloorNat (g (k + 2) * (nodes.length : Rat))) with
      | none =>
          rw [hrt] at hl
          simp only [List.mem_singleton] at hl
          exact hl ▸ hring
      | some randomTarget =>
          rw [hrt] at hl
          simp only [] at hl
          have hrtmem : randomTarget ∈ nodes := List.get?_mem hrt
          by_cases hcond : randomTarget.id ≠ source.id ∧ randomTarget.id ≠ target.id
          · rw [if_pos hcond] at hl
            simp only [List.mem_cons, List.not_mem_nil, or_false] at hl
            rcases hl with hl | hl
            · exact hl ▸ hring
            · subst hl
              refine ⟨⟨List.mem_map_of_mem Device.id hs,
                List.mem_map_of_mem Device.id hrtmem⟩, fun _ => Ne.symm hcond.1⟩
          · rw [if_neg hcond] at hl
            simp only [List.mem_singleton] at hl
            exact hl ▸ hring
    · rw [if_neg h7] at hl
      simp only [List.mem_singleton] at hl
      exact hl ▸ hring
  · rw [if_neg h3] at hl
    simp only [List.mem_singleton] at hl
    exact hl ▸ hring

theorem topoLinkStep_ok (g : Nat → Rat) (nodes : List Device) (acc : List Link × Nat)
    (i : Nat) (h : ∀ l ∈ acc.1, GeneratedLinkOK nodes l) :
    ∀ l ∈ (topoLinkStep g nodes acc i).1, GeneratedLinkOK nodes l := by
  intro l hl
  unfold topoLinkStep at hl
  cases hsi : nodes.get? i with
  | none =>
      rw [hsi] at hl
      exact h l hl
  | some source =>
      cases hti : nodes.get? ((i + 1) % nodes.length) with
      | none =>
          rw [hsi, hti] at hl
          exact h l hl
      | some target =>
          rw [hsi, hti] at hl
          simp only [List.mem_append] at hl
          rcases hl with hl | hl
          · exact h l hl
          · exact topoNewLinks_ok g nodes acc.2 source target
              (List.get?_mem hsi) (List.get?_mem hti) l hl

theorem foldl_topoLinkStep_ok (g : Nat → Rat) (nodes : List Device)
    (is : List Nat) (acc : List Link × Nat) (h : ∀ l ∈ acc.1, GeneratedLinkOK nodes l) :
    ∀ l ∈ (is.foldl (topoLinkStep g nodes) acc).1, GeneratedLinkOK nodes l := by
  induction is generalizing acc with
  | nil => exact h
  | cons i rest ih =>
      simp only [List.foldl_cons]
      exact ih (topoLinkStep g nodes acc i) (topoLinkStep_ok g nodes acc i h)

theorem generateDevices_length (g : Nat → Rat) (k : Nat) (cs : List NetconfDeviceConfig) :
    (generateDevices g k cs).1.length = cs.length := by
  induction cs generalizing k with
  | nil => rfl
  | cons c rest ih => simp [generateDevices, ih]

/-- C10: for every random stream and every config list, every link returned
by `generateTopologyFromConfig` references source and target ids that are
ids of nodes in the returned node list (so the unknown-endpoint drop path is
never exercised by generated data); links are produced only when the node
list has at least two entries (a list with at most one entry yields no
links); and the extra mesh (40Gbps) links never connect a node to itself. -/
theorem c10_generated_topology_wellformed (g : Nat → Rat)
    (configs : List NetconfDeviceConfig) :
    (∀ l ∈ (generateTopologyFromConfig g configs).links,
        l.source ∈ (generateTopologyFromConfig g configs).nodes.map Device.id ∧
          l.target ∈ (generateTopologyFromConfig g configs).nodes.map Device.id) ∧
      ((generateTopologyFromConfig g configs).nodes.length ≤ 1 →
        (generateTopologyFromConfig g configs).links = []) ∧
      (∀ l ∈ (generateTopologyFromConfig g configs).links,
        l.bandwidth = "40Gbps" → l.source ≠ l.target) := by
  have hok : ∀ l ∈ (generateTopologyFromConfig g configs).links,
      GeneratedLinkOK (generateTopologyFromConfig g configs).nodes l := by
    intro l hl
    show GeneratedLinkOK (generateDevices g 0 configs).1 l
    simp only [generateTopologyFromConfig] at hl
    by_cases h1 : (generateDevices g 0 configs).1.length > 1
    · rw [if_pos h1] at hl
      exact foldl_topoLinkStep_ok g (generateDevices g 0 configs).1 _ _
        (fun l hl => by cases hl) l hl
    · rw [if_neg h1] at hl
      cases hl
  refine ⟨fun l hl => (hok l hl).1, ?_, fun l hl => (hok l hl).2⟩
  intro hlen
  have hlen' : (generateDevices g 0 configs).1.length ≤ 1 := hlen
  show (if (generateDevices g 0 configs).1.length > 1 then _ else []) = []
  rw [if_neg (by omega)]

/-- The all-zero random stream, used to instantiate the C10 witness. -/
def gZero : Nat → Rat := fun _ => 0

/-- A concrete single device config. -/
def cfgA : NetconfDeviceConfig :=
  { id := "a", name := "Core-Router-01", ip := "192.168.10.1", port := 830,
    username := "admin", type := DeviceType.ROUTER }

/-- Witness for C10 at the concrete one-config input: the generated node
list has at most one entry, and therefore the generated link list is
empty. -/
theorem c10_generated_topology_wellformed_witness :
    (generateTopologyFromConfig gZero [cfgA]).nodes.length ≤ 1 ∧
      (generateTopologyFromConfig gZero [cfgA]).links = [] :=
  have hlen : (generateTopologyFromConfig gZero [cfgA]).nodes.length ≤ 1 := by
    show (generateDevices gZero 0 [cfgA]).1.length ≤ 1
    rw [generateDevices_length]
    decide
  ⟨hlen, (c10_generated_topology_wellformed gZero [cfgA]).2.1 hlen⟩

end SDI
